import Mathlib

/-
  Verification of the dhithe/scrapping-imoveis repository.

  The repository holds two Python scrapers:
    - src/extract_data.py      (site A: imovelweb, paginated driver `ImovelWebScraper`)
    - src/quintoandar_scraper.py (site B: quintoandar, single bulk request)

  This file gives a shallow embedding of the data model and of the
  functions that the claims speak about: Python values are modelled by
  the inductive `JVal`, Python exceptions by `PyExc`, and each fallible
  Python operation used by the code (subscript, `.get`, `str()`,
  truthiness, `+ 1`) by a small total Lean function.  Stateful code is
  modelled by explicit state passing; the pagination loop is given fuel.
-/

set_option maxHeartbeats 1000000

namespace Scrapping

/-- The Python exception classes that the scrapers' `except` clauses
distinguish. -/
inductive PyExc where
  | keyError
  | typeError
  | indexError
  | attributeError
deriving DecidableEq

/-- JSON-like Python values: everything the scrapers receive from
`response.json()` or `json.load` is one of these. -/
inductive JVal where
  | null : JVal
  | bool : Bool → JVal
  | num : Int → JVal
  | str : String → JVal
  | arr : List JVal → JVal
  | obj : List (String × JVal) → JVal

/-- Python truthiness of a JSON value (`if x:`): `None`, `False`, `0`,
`""`, `[]` and an empty dict are falsy, everything else truthy. -/
def pyTruthy : JVal → Bool
  | .null => false
  | .bool b => b
  | .num n => n != 0
  | .str s => s != ""
  | .arr l => !l.isEmpty
  | .obj l => !l.isEmpty

/-- Python `str()` of a JSON value.  Exact on the cases the code relies
on (`None`, booleans, integers, strings); for lists and dicts it is an
approximation of the Python repr that is, like the real repr, never the
empty string. -/
def pyStr : JVal → String
  | .null => "None"
  | .bool true => "True"
  | .bool false => "False"
  | .num n => toString n
  | .str s => s
  | .arr _ => "[...]"
  | .obj _ => "dict(...)"

/-- First binding of a key in a Python dict modelled as an association
list (Python dicts never hold a key twice). -/
def lookupKey (fields : List (String × JVal)) (k : String) : Option JVal :=
  match fields with
  | [] => none
  | (k', v) :: rest => if k' = k then some v else lookupKey rest k

/-- Python `v.get(k, d)`: only dicts have `.get`; any other receiver
raises `AttributeError`. -/
def pyGetD (v : JVal) (k : String) (d : JVal) : Except PyExc JVal :=
  match v with
  | .obj fields => .ok ((lookupKey fields k).getD d)
  | _ => .error .attributeError

/-- Python `v.get(k)` (default `None`). -/
def pyGet (v : JVal) (k : String) : Except PyExc JVal :=
  pyGetD v k .null

/-- Python subscript `v[k]` with a string key: dict lookup (`KeyError`
when absent); every non-dict receiver raises `TypeError` (strings and
lists demand integer indices, `None`/numbers are not subscriptable). -/
def pySubS (v : JVal) (k : String) : Except PyExc JVal :=
  match v with
  | .obj fields =>
      match lookupKey fields k with
      | some x => .ok x
      | none => .error .keyError
  | _ => .error .typeError

/-- Python subscript `v[i]` with a non-negative integer index: list and
string indexing (`IndexError` out of range), `KeyError` on a dict whose
keys are strings, `TypeError` otherwise. -/
def pySubN (v : JVal) (i : Nat) : Except PyExc JVal :=
  match v with
  | .arr l =>
      match l.get? i with
      | some x => .ok x
      | none => .error .indexError
  | .str s =>
      match s.data.get? i with
      | some c => .ok (.str (String.mk [c]))
      | none => .error .indexError
  | .obj _ => .error .keyError
  | _ => .error .typeError

/-- A Python `try`/`except (cls, ...)` around a computation: exceptions
in `caught` are replaced by `d`, all others propagate. -/
def catchExc (caught : List PyExc) (d : α) (m : Except PyExc α) : Except PyExc α :=
  match m with
  | .ok x => .ok x
  | .error e => if e ∈ caught then .ok d else .error e

/-- The fixed-schema flat row that `save_new_listings_to_city_csv`
builds for each listing (extract_data.py line 197).  A field holds
`JVal.null` exactly when the Python variable holds `None`. -/
structure FlatRow where
  postingId : JVal
  price : JVal
  expenses : JVal
  currency : JVal
  bedrooms : JVal
  suites : JVal
  bathrooms : JVal
  parking : JVal
  area_m2 : JVal
  location : JVal
  latitude : JVal
  longitude : JVal
  title : JVal
  description : JVal
  publisher : JVal
  full_url : JVal
  retrievedDate : String

/-- extract_data.py lines 166-170: `listing['priceOperationTypes'][0]['prices'][0]`
then `.get('amount')` / `.get('currency')`, under
`except (KeyError, TypeError, IndexError)`.  An `AttributeError` from
the `.get` calls (non-dict `price_info`) is not caught. -/
def priceCx (listing : JVal) : Except PyExc (JVal × JVal) :=
  catchExc [.keyError, .typeError, .indexError] (.null, .null) <| do
    let a ← pySubS listing "priceOperationTypes"
    let b ← pySubN a 0
    let c ← pySubS b "prices"
    let d ← pySubN c 0
    let amount ← pyGet d "amount"
    let currency ← pyGet d "currency"
    pure (amount, currency)

/-- extract_data.py lines 171-172: `listing['expenses']['amount']` under
`except (KeyError, TypeError)`.  Subscripts raise only `KeyError` or
`TypeError`, so this extraction is total. -/
def expensesCx (listing : JVal) : JVal :=
  match catchExc [.keyError, .typeError] .null
      (do let e ← pySubS listing "expenses"; pySubS e "amount") with
  | .ok v => v
  | .error _ => .null

/-- Python `s.lower()` on a JSON value: only strings have `.lower`. -/
def pyLower (v : JVal) : Except PyExc String :=
  match v with
  | .str s => .ok s.toLower
  | _ => .error .attributeError

/-- Python `needle in hay` for strings (substring test). -/
def pyInStr (needle hay : String) : Bool :=
  (hay.splitOn needle).length != 1

/-- extract_data.py lines 177-183: the generator
`next((f.get('value') for f in features_dict.values() if needle in f.get('label','').lower()), None)`.
Evaluation is lazy, so an exception surfaces at the first offending `f`
and earlier non-matching values have already been passed over. -/
def findFeature (values : List JVal) (needle : String) : Except PyExc JVal :=
  match values with
  | [] => .ok .null
  | f :: rest => do
      let lab ← pyGetD f "label" (.str "")
      let low ← pyLower lab
      if pyInStr needle low then
        pyGetD f "value" .null
      else
        findFeature rest needle

/-- The values view of a dict (`features_dict.values()`), empty for
non-dicts (only used after an `isinstance(..., dict)` check). -/
def objValues : JVal → List JVal
  | .obj fields => fields.map (·.2)
  | _ => []

/-- extract_data.py lines 173-184: the `mainFeatures` block.  The block
catches `AttributeError` and `TypeError`, and nothing else can be
raised inside it, so it is total; on a caught exception the variables
assigned before the raising line keep their values (initialised `None`
at line 173, `area` assigned at line 179 only after both searches
succeed).  Result order: (bedrooms, bathrooms, area, suites, parking). -/
def featuresCx (listing : JVal) : JVal × JVal × JVal × JVal × JVal :=
  match pyGetD listing "mainFeatures" (.obj []) with
  | .error _ => (.null, .null, .null, .null, .null)
  | .ok fd =>
    match fd with
    | .obj _ =>
      let vals := objValues fd
      match findFeature vals "útil" with
      | .error _ => (.null, .null, .null, .null, .null)
      | .ok areaUtil =>
        match findFeature vals "total" with
        | .error _ => (.null, .null, .null, .null, .null)
        | .ok areaTotal =>
          let area := if pyTruthy areaUtil then areaUtil else areaTotal
          match findFeature vals "quarto" with
          | .error _ => (.null, .null, area, .null, .null)
          | .ok bd =>
            match findFeature vals "banheiro" with
            | .error _ => (bd, .null, area, .null, .null)
            | .ok ba =>
              match findFeature vals "suíte" with
              | .error _ => (bd, ba, area, .null, .null)
              | .ok su =>
                match findFeature vals "vaga" with
                | .error _ => (bd, ba, area, su, .null)
                | .ok pk => (bd, ba, area, su, pk)
    | _ => (.null, .null, .null, .null, .null)

/-- extract_data.py lines 185-190: location / geolocation block under
`except (KeyError, TypeError, IndexError)`.  `location` is assigned at
line 187 before the geolocation lookups, so a caught exception there
leaves the already-extracted name in place; an `AttributeError` from
`geo.get(...)` (non-dict `geo`) is not caught. -/
def locCx (listing : JVal) : Except PyExc (JVal × JVal × JVal) :=
  match catchExc [.keyError, .typeError, .indexError] none
      (do let pl ← pySubS listing "postingLocation"
          let loc ← pySubS pl "location"
          let nm ← pySubS loc "name"
          pure (some (pl, nm))) with
  | .error e => .error e
  | .ok none => .ok (.null, .null, .null)
  | .ok (some (pl, nm)) =>
    match catchExc [.keyError, .typeError, .indexError] none
        (do let pg ← pySubS pl "postingGeolocation"
            let geo ← pySubS pg "geolocation"
            let lat ← pyGet geo "latitude"
            let lon ← pyGet geo "longitude"
            pure (some (lat, lon))) with
    | .error e => .error e
    | .ok none => .ok (nm, .null, .null)
    | .ok (some (lat, lon)) => .ok (nm, lat, lon)

/-- extract_data.py lines 191-196: `full_url` block; only `TypeError`
(string concatenation with a non-string) is caught, an
`AttributeError` from `listing.get` is not. -/
def urlCx (listing : JVal) : Except PyExc JVal :=
  match pyGetD listing "url" (.str "") with
  | .error e => .error e
  | .ok ru =>
    if pyTruthy ru then
      match ru with
      | .str r => .ok (.str ("https://www.imovelweb.com.br" ++ r))
      | _ => .ok .null
    else
      .ok .null

/-- extract_data.py lines 164-198: flattening of one listing record into
a `FlatRow`, with each field extracted independently.  The `.get` calls
of line 197 (`postingId`, `title`, `descriptionNormalized`,
`publisher`) are outside every `try` block, so an `AttributeError`
there propagates. -/
def flattenListing (listing : JVal) (timestamp : String) : Except PyExc FlatRow := do
  let pc ← priceCx listing
  let ex := expensesCx listing
  let ft := featuresCx listing
  let lc ← locCx listing
  let fu ← urlCx listing
  let pid ← pyGet listing "postingId"
  let ti ← pyGet listing "title"
  let de ← pyGet listing "descriptionNormalized"
  let pub0 ← pyGetD listing "publisher" (.obj [])
  let pub ← pyGet pub0 "name"
  pure { postingId := pid, price := pc.1, expenses := ex, currency := pc.2,
         bedrooms := ft.1, suites := ft.2.2.2.1, bathrooms := ft.2.1,
         parking := ft.2.2.2.2, area_m2 := ft.2.2.1,
         location := lc.1, latitude := lc.2.1, longitude := lc.2.2,
         title := ti, description := de, publisher := pub, full_url := fu,
         retrievedDate := timestamp }

/-- Outcome of one page request as seen by `scrape_page`
(extract_data.py lines 96-100): an HTTP 200 answer whose parsed body
yielded the `listPostings` list, a non-200 status code, or an exception
raised while requesting or parsing (all of which line 119 catches). -/
inductive FetchResult where
  | ok : List JVal → FetchResult
  | httpErr : Nat → FetchResult
  | exc : PyExc → FetchResult

/-- The mutable state a city's `ImovelWebScraper` touches while
scraping: its constructor arguments `seen_posting_ids`, the session
accumulator `new_listings_this_session`, the session counter, and the
observable effects on the world — the persisted `last_page`, the log of
state-file writes, and the log of requested pages. -/
structure ScrapeSt where
  seen_posting_ids : List String
  session : List (String × JVal)
  new_listings_count : Nat
  lastPageFile : Option Int
  stateWrites : List Int
  requested : List Int

/-- The keys of the session accumulator (`new_listings_this_session`). -/
def sessionKeys (st : ScrapeSt) : List String :=
  st.session.map Prod.fst

/-- extract_data.py lines 105-110: the per-item loop of `scrape_page`.
`posting_id = str(listing_item.get("postingId"))` is kept when truthy
(a non-empty string), not in `seen_posting_ids` and not already a
session key.  A non-dict item makes `.get` raise `AttributeError`,
which aborts the loop with the session additions made so far kept
(the dict is mutated in place).  Returns the updated state, the page's
`new_in_session_count`, and the in-flight exception if any. -/
def processItems (items : List JVal) (st : ScrapeSt) (cnt : Nat) :
    ScrapeSt × Nat × Option PyExc :=
  match items with
  | [] => (st, cnt, none)
  | it :: rest =>
    match pyGet it "postingId" with
    | .error e => (st, cnt, some e)
    | .ok pv =>
      let pid := pyStr pv
      if pid != "" && !st.seen_posting_ids.contains pid
          && (lookupKey st.session pid).isNone then
        processItems rest { st with session := st.session ++ [(pid, it)] } (cnt + 1)
      else
        processItems rest st cnt

/-- extract_data.py lines 85-121: `scrape_page`.  Requests the page; on
HTTP 200 with a non-empty `listPostings` it records the unseen items,
adds the page's count to `new_listings_count`, persists
`last_page = page` (line 114) and returns `True`; on an empty list, a
non-200 status, or any exception it returns `False` with the state file
untouched. -/
def scrape_page (fetch : Int → FetchResult) (page : Int) (st : ScrapeSt) :
    Bool × ScrapeSt :=
  let st0 := { st with requested := st.requested ++ [page] }
  match fetch page with
  | .exc _ => (false, st0)
  | .httpErr _ => (false, st0)
  | .ok [] => (false, st0)
  | .ok items =>
    match processItems items st0 0 with
    | (st1, _, some _) => (false, st1)
    | (st1, n, none) =>
      (true, { st1 with new_listings_count := st1.new_listings_count + n,
                        lastPageFile := some page,
                        stateWrites := st1.stateWrites ++ [page] })

/-- Result of the `while True` loop of `scrape` (extract_data.py lines
129-137): either the loop ended by `break`, or an exception is in
flight (e.g. from `time.sleep`, modelled by the `sleepF` oracle). -/
inductive LoopRes where
  | fin : ScrapeSt → LoopRes
  | raised : PyExc → ScrapeSt → LoopRes

/-- Truthiness of the optional `max_pages` CLI integer:
`if max_pages and pages_scraped_this_run >= max_pages`. -/
def maxPagesHit (maxPages : Option Int) (scraped : Int) : Bool :=
  match maxPages with
  | none => false
  | some m => m != 0 && scraped ≥ m

/-- extract_data.py lines 129-137: the pagination loop, with fuel (the
theorems always supply enough fuel for the loop to reach its real
exit).  Each iteration checks the page cap, calls `scrape_page`,
breaks on `False`, then increments the counters and sleeps; the
`sleepF` oracle injects an exception raised during the sleep. -/
def scrapeLoop (fetch : Int → FetchResult) (sleepF : Int → Option PyExc)
    (maxPages : Option Int) : Nat → Int → Int → ScrapeSt → LoopRes
  | 0, _, _, st => .fin st
  | fuel + 1, page, scraped, st =>
    if maxPagesHit maxPages scraped then .fin st
    else
      match scrape_page fetch page st with
      | (false, st') => .fin st'
      | (true, st') =>
        match sleepF page with
        | some e => .raised e st'
        | none => scrapeLoop fetch sleepF maxPages fuel (page + 1) (scraped + 1) st'

/-- Python `x + 1` on a JSON value (extract_data.py line 124,
`self.state.get("last_page", 0) + 1`): integers and booleans add,
everything else raises `TypeError`. -/
def pyAddOne (v : JVal) : Except PyExc Int :=
  match v with
  | .num n => .ok (n + 1)
  | .bool true => .ok 2
  | .bool false => .ok 1
  | _ => .error .typeError

/-- extract_data.py line 124:
`current_page = start_page or self.state.get("last_page", 0) + 1`.
`start_page` is used only when truthy (a non-zero integer); otherwise
the loaded state value is read — which raises if the state file held
valid JSON that is not a dict, or a non-numeric `last_page`.  This line
runs before the `try` of line 128. -/
def initialPage (startPage : Option Int) (stateVal : JVal) : Except PyExc Int :=
  match startPage with
  | some p => if p != 0 then .ok p else do pyAddOne (← pyGetD stateVal "last_page" (.num 0))
  | none => do pyAddOne (← pyGetD stateVal "last_page" (.num 0))

/-- extract_data.py lines 123-140: the `scrape` method.  Computes the
first page (line 124, outside the `try`), runs the loop, and — because
the `finally` block ends in `return self.new_listings_this_session` —
returns the session accumulator even when an exception is in flight
from the loop body.  Only an exception from line 124 itself can
propagate.  The result pairs the returned accumulator with the final
state. -/
def scrapeRun (fetch : Int → FetchResult) (sleepF : Int → Option PyExc)
    (startPage : Option Int) (maxPages : Option Int) (stateVal : JVal)
    (fuel : Nat) (st : ScrapeSt) :
    Except PyExc (List (String × JVal) × ScrapeSt) :=
  match initialPage startPage stateVal with
  | .error e => .error e
  | .ok p0 =>
    match scrapeLoop fetch sleepF maxPages fuel p0 0 st with
    | .fin st' => .ok (st'.session, st')
    | .raised _ st' => .ok (st'.session, st')

/-- Outcome of the quintoandar HTTP POST as seen inside
`fetch_quintoandar_data` (quintoandar_scraper.py lines 53-70): a
request-level failure (`requests.exceptions.RequestException`), a JSON
decode failure, or a decoded JSON body. -/
inductive QResp where
  | reqErr : QResp
  | decodeErr : QResp
  | okJson : JVal → QResp

/-- The `[hit["_source"] for hit in hits]` comprehension of
quintoandar_scraper.py line 60: iterating a truthy non-list raises
`TypeError` when the element is subscripted (dict keys and string
characters are strings, numbers are not iterable). -/
def qaSources (hv : JVal) : Except PyExc (List JVal) :=
  match hv with
  | .arr hits => hits.mapM (fun h => pySubS h "_source")
  | _ => .error .typeError

/-- quintoandar_scraper.py lines 27-70: `fetch_quintoandar_data`.
Returns `none` for the `(None, None)` error returns (only
`RequestException` and `JSONDecodeError` are caught), `some []` when
`hits.hits` is falsy, otherwise the `_source` list.  A `KeyError` from
a hit without `_source`, or an `AttributeError` from a non-dict body,
propagates to the caller. -/
def fetch_quintoandar_data (resp : QResp) : Except PyExc (Option (List JVal)) :=
  match resp with
  | .reqErr => .ok none
  | .decodeErr => .ok none
  | .okJson data =>
    match (do let h ← pyGetD data "hits" (.obj []); pyGet h "hits") with
    | .error e => .error e
    | .ok hv =>
      if pyTruthy hv then
        match qaSources hv with
        | .error e => .error e
        | .ok listings => .ok (some listings)
      else
        .ok (some [])

/-- Insertion into a Python dict built by a comprehension: an existing
key keeps its position but takes the new value, a new key is appended
(quintoandar_scraper.py line 131). -/
def dictInsert (l : List (String × JVal)) (k : String) (v : JVal) :
    List (String × JVal) :=
  if (lookupKey l k).isSome then
    l.map (fun p => if p.1 = k then (k, v) else p)
  else
    l ++ [(k, v)]

/-- quintoandar_scraper.py line 131:
`{str(item['id']): item for item in listings}` — `item['id']` raises
`KeyError` on a record without the key. -/
def qaUniqueAux (acc : List (String × JVal)) (listings : List JVal) :
    Except PyExc (List (String × JVal)) :=
  match listings with
  | [] => .ok acc
  | it :: rest => do
      let idv ← pySubS it "id"
      qaUniqueAux (dictInsert acc (pyStr idv) it) rest

/-- The deduplicated `(str(item['id']), item)` association list, in
`.values()` order. -/
def qaUnique (listings : List JVal) : Except PyExc (List (String × JVal)) :=
  qaUniqueAux [] listings

/-- quintoandar_scraper.py lines 130-140: the per-city body of
`__main__` after the fetch.  When the fetch yields a truthy listing
list, it deduplicates by stringified id and keeps only ids not in
`existing_ids`; the kept rows (with their id strings) are what
`save_to_csv` appends.  Re-raising paths (`KeyError` on a record
without `id`, bad response shapes) propagate. -/
def qaProcessCity (existing : List String) (resp : QResp) :
    Except PyExc (List (String × JVal)) :=
  match fetch_quintoandar_data resp with
  | .error e => .error e
  | .ok none => .ok []
  | .ok (some listings) =>
    if listings.isEmpty then .ok []
    else
      match qaUnique listings with
      | .error e => .error e
      | .ok uniq => .ok (uniq.filter (fun p => !existing.contains p.1))

/-- Exit behaviour of a scraper process: a clean `sys.exit`/fall-off
with a code, or an uncaught exception (which the interpreter turns into
a non-zero exit). -/
inductive ProcExit where
  | exit : Nat → ProcExit
  | crash : PyExc → ProcExit

/-- Whether a `ProcExit` is a non-zero process exit status. -/
def ProcExit.nonzero : ProcExit → Bool
  | .exit c => c != 0
  | .crash _ => true

/-- The numeric value of a run of decimal digit characters. -/
def natOfDigits (cs : List Char) : Nat :=
  cs.foldl (fun a c => a * 10 + (c.toNat - 48)) 0

/-- Python `int(arg)` on a CLI string: an optional leading minus sign
followed by at least one decimal digit (Python's extra tolerance for
surrounding whitespace and underscores is not modelled). -/
def pyParseInt (s : String) : Option Int :=
  match s.data with
  | [] => none
  | '-' :: rest =>
      if !rest.isEmpty && rest.all Char.isDigit then
        some (-(natOfDigits rest : Int))
      else none
  | cs =>
      if cs.all Char.isDigit then some ((natOfDigits cs : Int)) else none

/-- quintoandar_scraper.py lines 94-107: CLI validation of `__main__` —
fewer than two arguments, a non-integer multiplier, or a multiplier
below 1, each `sys.exit(1)`. -/
def qaValidationFails (argv : List String) : Bool :=
  argv.length < 3 ||
    match (argv.get? 1).bind pyParseInt with
    | none => true
    | some m => m < 1

/-- quintoandar_scraper.py lines 117-142: the per-city loop of
`__main__` — the first uncaught exception crashes the process, else it
falls off the end of the loop. -/
def qaMainGo (existingO : String → List String) (respO : String → QResp) :
    List String → ProcExit
  | [] => .exit 0
  | c :: rest =>
    match qaProcessCity (existingO c) (respO c) with
    | .error e => .crash e
    | .ok _ => qaMainGo existingO respO rest

/-- quintoandar_scraper.py lines 93-144: the `__main__` driver.
Validation failures exit 1; then each requested city is processed in
order (`existingO` gives the ids loaded from the city's prior output
file, `respO` the API response); an uncaught exception while processing
a city crashes the process, otherwise it exits 0. -/
def qaMainRun (argv : List String) (existingO : String → List String)
    (respO : String → QResp) : ProcExit :=
  if qaValidationFails argv then .exit 1
  else qaMainGo existingO respO (argv.drop 2)

/-- extract_data.py lines 215-237: exit behaviour of site A's `main`.
`argparse` exits 2 when the required repeatable `--city` flag is
missing (or any argument fails to parse); afterwards `main` only
starts threads and joins them — an unknown city slug is skipped with a
warning (line 229) and exceptions inside worker threads never change
the main thread's exit status — so the process always exits 0. -/
def iwMainExit (cityArg : Option (List String)) : ProcExit :=
  match cityArg with
  | none => .exit 2
  | some [] => .exit 2
  | some (_ :: _) => .exit 0

/-- Python `slug.replace('-', '_')` — replacement of a single
character, i.e. a character map. -/
def pyReplaceDash (s : String) : String :=
  String.mk (s.data.map (fun c => if c = '-' then '_' else c))

/-- extract_data.py line 23: the per-city state file name,
`f"{base}_{city_slug.replace('-', '_')}.json"`. -/
def stateFileName (base slug : String) : String :=
  base ++ "_" ++ pyReplaceDash slug ++ ".json"

/-- extract_data.py line 163: the per-run output file name,
`f"{timestamp}_{city_slug}_results.csv"`. -/
def outputFileName (timestamp slug : String) : String :=
  timestamp ++ "_" ++ slug ++ "_results.csv"

/-- extract_data.py lines 145-146: whether a file name matches the glob
`*_{city_slug}_results.csv` used to collect a city's prior outputs
(`*` matches any, possibly empty, run of characters, so the glob is a
suffix test). -/
def cityPatternMatches (slug name : String) : Bool :=
  ("_" ++ slug ++ "_results.csv").data.isSuffixOf name.data

/-- extract_data.py lines 142-154: `load_seen_ids_from_city_csvs`,
over an abstract directory listing of `(name, postingId column)`
pairs — the union of the id columns of the files matching the city's
pattern. -/
def load_seen_ids (files : List (String × List String)) (slug : String) :
    List String :=
  (files.filter (fun f => cityPatternMatches slug f.1)).flatMap (·.2)

/-- Whether a JSON value is a dict. -/
def isObjJ : JVal → Bool
  | .obj _ => true
  | _ => false

/-- The id string under which `scrape_page` would file a listing item:
`str(listing_item.get("postingId"))` (extract_data.py line 107); the
empty string stands for the aborting `AttributeError` of a non-dict
item. -/
def postedId (it : JVal) : String :=
  match pyGet it "postingId" with
  | .ok v => pyStr v
  | .error _ => ""

/-- The id string of a quintoandar listing, `str(item['id'])`
(quintoandar_scraper.py lines 131 and 134); the empty string stands for
the `KeyError` of a record without the key. -/
def qaIdOf (it : JVal) : String :=
  match pySubS it "id" with
  | .ok v => pyStr v
  | .error _ => ""

/-- The `publisher` value of a record, when present, is a dict — the
condition under which `listing.get('publisher', {}).get('name')`
(extract_data.py line 197) does not raise. -/
def pubSafe (fields : List (String × JVal)) : Bool :=
  match lookupKey fields "publisher" with
  | some v => isObjJ v
  | none => true

/-- A quintoandar API outcome that the `__main__` loop survives: the
fetch either returns its error sentinel or a listing list in which
every record has an `id` key. -/
def qaRespSafe (resp : QResp) : Bool :=
  match fetch_quintoandar_data resp with
  | .error _ => false
  | .ok none => true
  | .ok (some l) => l.all (fun it => (pySubS it "id").isOk)

/-- The scraper state right after `ImovelWebScraper.__init__`
(extract_data.py lines 60-63): the seen-id set from the city's prior
CSVs, an empty session accumulator, a zero counter, the pre-existing
state-file content, and empty effect logs. -/
def initSt (seen : List String) (lastPage : Option Int) : ScrapeSt :=
  { seen_posting_ids := seen, session := [], new_listings_count := 0,
    lastPageFile := lastPage, stateWrites := [], requested := [] }

/-- The scraper state carried by a loop result. -/
def LoopRes.st : LoopRes → ScrapeSt
  | .fin s => s
  | .raised _ s => s

theorem lookupKey_isSome_iff (fields : List (String × JVal)) (k : String) :
    (lookupKey fields k).isSome = true ↔ k ∈ fields.map Prod.fst := by
  induction fields with
  | nil => simp [lookupKey]
  | cons p rest ih =>
    obtain ⟨k', v⟩ := p
    simp only [lookupKey, List.map_cons, List.mem_cons]
    by_cases h : k' = k
    · subst h
      simp
    · rw [if_neg h, ih]
      constructor
      · exact Or.inr
      · rintro (rfl | hm)
        · exact absurd rfl h
        · exact hm

theorem processItems_invar (items : List JVal) (st : ScrapeSt) (cnt : Nat) :
    ((processItems items st cnt).1).seen_posting_ids = st.seen_posting_ids ∧
    ((processItems items st cnt).1).lastPageFile = st.lastPageFile ∧
    ((processItems items st cnt).1).stateWrites = st.stateWrites ∧
    ((processItems items st cnt).1).requested = st.requested ∧
    ((processItems items st cnt).1).new_listings_count = st.new_listings_count := by
  induction items generalizing st cnt with
  | nil => simp [processItems]
  | cons it rest ih =>
    cases hg : pyGet it "postingId" with
    | error e => simp [processItems, hg]
    | ok pv =>
      simp only [processItems, hg]
      by_cases h : (pyStr pv != "" && !st.seen_posting_ids.contains (pyStr pv)
          && (lookupKey st.session (pyStr pv)).isNone) = true
      · rw [if_pos h]
        simpa using ih { st with session := st.session ++ [(pyStr pv, it)] } (cnt + 1)
      · rw [if_neg h]
        exact ih st cnt

theorem scrape_page_requested (fetch : Int → FetchResult) (page : Int) (st : ScrapeSt) :
    ((scrape_page fetch page st).2).requested = st.requested ++ [page] := by
  unfold scrape_page
  cases hf : fetch page with
  | exc e => simp
  | httpErr c => simp
  | ok items =>
    cases items with
    | nil => simp
    | cons a l =>
      have hi := (processItems_invar (a :: l)
        { st with requested := st.requested ++ [page] } 0).2.2.2.1
      rcases hp : processItems (a :: l) { st with requested := st.requested ++ [page] } 0
        with ⟨st1, n, exc⟩
      rw [hp] at hi
      cases exc <;> simp_all

theorem scrapeLoop_requested_extends (fetch : Int → FetchResult)
    (sleepF : Int → Option PyExc) (maxPages : Option Int) (fuel : Nat)
    (page scraped : Int) (st : ScrapeSt) :
    ∃ l, ((scrapeLoop fetch sleepF maxPages fuel page scraped st).st).requested
      = st.requested ++ l := by
  induction fuel generalizing page scraped st with
  | zero => exact ⟨[], by simp [scrapeLoop, LoopRes.st]⟩
  | succ fuel ih =>
    unfold scrapeLoop
    by_cases hcap : maxPagesHit maxPages scraped = true
    · exact ⟨[], by simp [hcap, LoopRes.st]⟩
    · rcases hsp : scrape_page fetch page st with ⟨b, st'⟩
      have hreq : st'.requested = st.requested ++ [page] := by
        have := scrape_page_requested fetch page st
        rw [hsp] at this
        exact this
      cases b with
      | false =>
        refine ⟨[page], ?_⟩
        simp [hcap, hsp, LoopRes.st, hreq]
      | true =>
        cases hs : sleepF page with
        | some e =>
          refine ⟨[page], ?_⟩
          simp [hcap, hsp, hs, LoopRes.st, hreq]
        | none =>
          obtain ⟨l, hl⟩ := ih (page + 1) (scraped + 1) st'
          refine ⟨[page] ++ l, ?_⟩
          simp only [eq_false_of_ne_true hcap, Bool.false_eq_true, if_false, hsp, hs]
          rw [hl, hreq, List.append_assoc]

theorem scrapeLoop_first_page (fetch : Int → FetchResult)
    (sleepF : Int → Option PyExc) (maxPages : Option Int) (fuel : Nat)
    (page scraped : Int) (st : ScrapeSt)
    (hcap : maxPagesHit maxPages scraped = false) :
    ∃ l, ((scrapeLoop fetch sleepF maxPages (fuel + 1) page scraped st).st).requested
      = st.requested ++ [page] ++ l := by
  unfold scrapeLoop
  rcases hsp : scrape_page fetch page st with ⟨b, st'⟩
  have hreq : st'.requested = st.requested ++ [page] := by
    have := scrape_page_requested fetch page st
    rw [hsp] at this
    exact this
  cases b with
  | false =>
    refine ⟨[], ?_⟩
    simp [hcap, hsp, LoopRes.st, hreq]
  | true =>
    cases hs : sleepF page with
    | some e =>
      refine ⟨[], ?_⟩
      simp [hcap, hsp, hs, LoopRes.st, hreq]
    | none =>
      obtain ⟨l, hl⟩ := scrapeLoop_requested_extends fetch sleepF maxPages fuel
        (page + 1) (scraped + 1) st'
      refine ⟨l, ?_⟩
      simp only [hcap, Bool.false_eq_true, if_false, hsp, hs]
      rw [hl, hreq]

theorem scrapeRun_eq (fetch : Int → FetchResult) (sleepF : Int → Option PyExc)
    (startPage maxPages : Option Int) (stateVal : JVal) (fuel : Nat)
    (st : ScrapeSt) (p0 : Int)
    (h : initialPage startPage stateVal = .ok p0) :
    scrapeRun fetch sleepF startPage maxPages stateVal fuel st =
      .ok ((scrapeLoop fetch sleepF maxPages fuel p0 0 st).st.session,
           (scrapeLoop fetch sleepF maxPages fuel p0 0 st).st) := by
  unfold scrapeRun
  rw [h]
  split
  · next heq => exact absurd heq (by simp)
  · next p1 heq =>
    injection heq with he
    subst he
    split
    · next st' heq2 =>
      rw [heq2]
      rfl
    · next e st' heq2 =>
      rw [heq2]
      rfl

/-- C3, as stated, is refuted by the override value `0`: Python's
`start_page or self.state.get("last_page", 0) + 1` treats a `0`
override as falsy, so with persisted `last_page = 5` the driver's first
requested page is `6`, not the override `0`. -/
theorem C3_counterexample :
    initialPage (some 0) (.obj [("last_page", .num 5)]) = .ok 6 ∧
    ∃ r, scrapeRun (fun _ => .ok []) (fun _ => none) (some 0) none
        (.obj [("last_page", .num 5)]) 5 (initSt [] none) = .ok r ∧
      r.2.requested = [6] := by
  refine ⟨rfl, ?_⟩
  exact ⟨_, rfl, rfl⟩

/-- C3 amended: for every non-zero start-page override `p`, the driver
ignores the persisted state entirely (line 124 short-circuits, so even
an unreadable state value is never touched) and its first requested
page is `p`; an override of `0` is treated as absent. -/
theorem C3_amended (p : Int) (hp : p ≠ 0) (stateVal : JVal) :
    initialPage (some p) stateVal = .ok p ∧
    ∀ (fetch : Int → FetchResult) (sleepF : Int → Option PyExc) (fuel : Nat)
      (st : ScrapeSt) (r : List (String × JVal) × ScrapeSt),
      st.requested = [] →
      scrapeRun fetch sleepF (some p) none stateVal (fuel + 1) st = .ok r →
      r.2.requested.head? = some p := by
  have hinit : initialPage (some p) stateVal = .ok p := by
    simp [initialPage, hp]
  refine ⟨hinit, ?_⟩
  intro fetch sleepF fuel st r hreq hrun
  rw [scrapeRun_eq fetch sleepF (some p) none stateVal (fuel + 1) st p hinit] at hrun
  have hcap : maxPagesHit none 0 = false := rfl
  obtain ⟨l, hl⟩ := scrapeLoop_first_page fetch sleepF none fuel p 0 st hcap
  injection hrun with h2
  rw [← h2]
  simp [hl, hreq]

theorem C3_amended_witness :
    initialPage (some 7) (.str "garbage") = .ok 7 ∧
    (⟨([] : List (String × JVal)),
      { seen_posting_ids := [], session := [], new_listings_count := 0,
        lastPageFile := none, stateWrites := [], requested := [7] }⟩ :
      List (String × JVal) × ScrapeSt).2.requested.head? = some 7 := by
  have h := C3_amended 7 (by decide) (.str "garbage")
  exact ⟨h.1, h.2 (fun _ => .ok []) (fun _ => none) 2 (initSt [] none) _ rfl rfl⟩

/-- C10, as stated, is refuted: the `finally: return` of lines 138-140
only guards the `try` body, while line 124 runs before it — with a
state file holding valid JSON that is not a dict (here the string
`"not a dict"`), `self.state.get("last_page", 0)` raises an
`AttributeError` that `scrape` propagates to its caller. -/
theorem C10_counterexample :
    scrapeRun (fun _ => .ok []) (fun _ => none) none none (.str "not a dict") 5
      (initSt [] none) = .error .attributeError := rfl

/-- C10 amended: once line 124 has produced the first page, the
`return` in the `finally` block makes `scrape` return the session
accumulator collected so far, for every fetch behaviour and even when
an exception is raised inside the loop body (modelled by the sleep
oracle); only an exception from computing the initial page itself
propagates. -/
theorem C10_amended (fetch : Int → FetchResult) (sleepF : Int → Option PyExc)
    (startPage maxPages : Option Int) (stateVal : JVal) (fuel : Nat)
    (st : ScrapeSt) (p0 : Int)
    (h : initialPage startPage stateVal = .ok p0) :
    ∃ st', (scrapeLoop fetch sleepF maxPages fuel p0 0 st = .fin st' ∨
        ∃ e, scrapeLoop fetch sleepF maxPages fuel p0 0 st = .raised e st') ∧
      scrapeRun fetch sleepF startPage maxPages stateVal fuel st =
        .ok (st'.session, st') := by
  refine ⟨(scrapeLoop fetch sleepF maxPages fuel p0 0 st).st, ?_,
    scrapeRun_eq fetch sleepF startPage maxPages stateVal fuel st p0 h⟩
  cases hl : scrapeLoop fetch sleepF maxPages fuel p0 0 st with
  | fin st' => exact Or.inl rfl
  | raised e st' => exact Or.inr ⟨e, rfl⟩

theorem C10_amended_witness :
    ∃ st', (scrapeLoop (fun _ => .ok [.obj [("postingId", .str "A")]])
        (fun _ => some .typeError) none 5 1 0 (initSt [] none) = .fin st' ∨
        ∃ e, scrapeLoop (fun _ => .ok [.obj [("postingId", .str "A")]])
          (fun _ => some .typeError) none 5 1 0 (initSt [] none) = .raised e st') ∧
      scrapeRun (fun _ => .ok [.obj [("postingId", .str "A")]])
        (fun _ => some .typeError) (some 1) none .null 5 (initSt [] none) =
        .ok (st'.session, st') :=
  C10_amended (fun _ => .ok [.obj [("postingId", .str "A")]])
    (fun _ => some .typeError) (some 1) none .null 5 (initSt [] none) 1 rfl

/-- C8, as stated, is refuted on the state-file naming scheme: the
slugs `a-b` and `a_b` are distinct requested cities, yet
`f"{base}_{slug.replace('-', '_')}.json"` maps both to the same state
file, so their workers would share one mutable state file. -/
theorem C8_counterexample :
    ("a-b" : String) ≠ "a_b" ∧
    stateFileName "scraper_state" "a-b" = stateFileName "scraper_state" "a_b" := by
  exact ⟨by decide, rfl⟩

theorem appendMiddleInj (a u j x y : String)
    (h : a ++ u ++ x ++ j = a ++ u ++ y ++ j) : x = y := by
  apply String.ext
  have hd := congrArg String.data h
  simp only [String.data_append] at hd
  exact List.append_cancel_left (List.append_cancel_right hd)

/-- C8 amended: provided two requested slugs stay distinct after the
`'-' → '_'` replacement (true of all real hyphenated city slugs), the
two workers' state files are distinct, their output files are distinct
even for the same timestamp, and one city's seen-id loading is
unaffected by the other city's output files (those matching no
`*_{slug}_results.csv` pattern of the first city). -/
theorem C8_amended (base ts s1 s2 : String)
    (h : pyReplaceDash s1 ≠ pyReplaceDash s2) :
    stateFileName base s1 ≠ stateFileName base s2 ∧
    outputFileName ts s1 ≠ outputFileName ts s2 ∧
    ∀ (own other : List (String × List String)),
      (∀ f ∈ other, cityPatternMatches s1 f.1 = false) →
      load_seen_ids (own ++ other) s1 = load_seen_ids own s1 := by
  refine ⟨?_, ?_, ?_⟩
  · intro he
    unfold stateFileName at he
    exact h (appendMiddleInj base "_" ".json" _ _ he)
  · intro he
    unfold outputFileName at he
    have hs : s1 = s2 := appendMiddleInj ts "_" "_results.csv" s1 s2 he
    exact h (by rw [hs])
  · intro own other hother
    unfold load_seen_ids
    rw [List.filter_append]
    have hnil : other.filter (fun f => cityPatternMatches s1 f.1) = [] := by
      rw [List.filter_eq_nil_iff]
      intro f hf
      simp [hother f hf]
    rw [hnil, List.append_nil]

theorem C8_amended_witness :
    stateFileName "scraper_state" "itanhaem-sp" ≠ stateFileName "scraper_state" "santos-sp" ∧
    outputFileName "2025-01-01_00-00-00" "itanhaem-sp" ≠ outputFileName "2025-01-01_00-00-00" "santos-sp" ∧
    load_seen_ids ([("t_itanhaem-sp_results.csv", ["1"])] ++ [("t_santos-sp_results.csv", ["2"])])
        "itanhaem-sp" = load_seen_ids [("t_itanhaem-sp_results.csv", ["1"])] "itanhaem-sp" := by
  obtain ⟨h1, h2, h3⟩ := C8_amended "scraper_state" "2025-01-01_00-00-00"
    "itanhaem-sp" "santos-sp" (by decide)
  exact ⟨h1, h2, h3 _ _ (by decide)⟩

/-- C4: on an empty listing array, a non-200 status, or any exception
during a page fetch, `scrape_page` reports a terminal `False` (which
makes the pagination loop stop) and leaves the state file untouched by
that iteration; `last_page` is overwritten — with the current page —
only when the fetch returned HTTP 200 with a non-empty listing array
(and the item loop completed). -/
theorem C4_stop_and_state (fetch : Int → FetchResult) (page : Int) (st : ScrapeSt) :
    (∀ e, fetch page = .exc e →
      scrape_page fetch page st = (false, { st with requested := st.requested ++ [page] })) ∧
    (∀ c, fetch page = .httpErr c →
      scrape_page fetch page st = (false, { st with requested := st.requested ++ [page] })) ∧
    (fetch page = .ok [] →
      scrape_page fetch page st = (false, { st with requested := st.requested ++ [page] })) ∧
    (∀ b st', scrape_page fetch page st = (b, st') →
      (st'.lastPageFile = st.lastPageFile ∧ st'.stateWrites = st.stateWrites) ∨
      (∃ items, fetch page = .ok items ∧ items ≠ [] ∧ b = true ∧
        st'.lastPageFile = some page ∧ st'.stateWrites = st.stateWrites ++ [page])) ∧
    (∀ st', scrape_page fetch page st = (false, st') →
      ∀ (sleepF : Int → Option PyExc) (fuel : Nat) (scraped : Int),
        scrapeLoop fetch sleepF none (fuel + 1) page scraped st = .fin st') := by
  refine ⟨?_, ?_, ?_, ?_, ?_⟩
  · intro e he
    unfold scrape_page
    rw [he]
  · intro c hc
    unfold scrape_page
    rw [hc]
  · intro h0
    unfold scrape_page
    rw [h0]
  · intro b st' hsp
    unfold scrape_page at hsp
    split at hsp
    · next heq =>
      injection hsp with hb hst
      subst hst
      exact Or.inl ⟨rfl, rfl⟩
    · next heq =>
      injection hsp with hb hst
      subst hst
      exact Or.inl ⟨rfl, rfl⟩
    · next heq =>
      injection hsp with hb hst
      subst hst
      exact Or.inl ⟨rfl, rfl⟩
    · next its hne heq =>
      dsimp only at hsp
      split at hsp
      · next st1 k e hp =>
        have hi := processItems_invar its
          { st with requested := st.requested ++ [page] } 0
        rw [hp] at hi
        injection hsp with hb hst
        subst hst
        exact Or.inl ⟨hi.2.1, hi.2.2.1⟩
      · next st1 n hp =>
        have hi := processItems_invar its
          { st with requested := st.requested ++ [page] } 0
        rw [hp] at hi
        injection hsp with hb hst
        subst hst
        refine Or.inr ⟨its, heq, hne, hb.symm, rfl, ?_⟩
        simpa using hi.2.2.1
  · intro st' hsp sleepF fuel scraped
    unfold scrapeLoop
    have hcap : maxPagesHit none scraped = false := rfl
    rw [hcap]
    simp only [Bool.false_eq_true, if_false]
    rw [hsp]

theorem C4_stop_and_state_witness :
    scrape_page (fun _ => .httpErr 403) 3 (initSt ["x"] (some 9)) =
      (false, { initSt ["x"] (some 9) with requested := [3] }) ∧
    scrapeLoop (fun _ => .httpErr 403) (fun _ => none) none 4 3 0 (initSt ["x"] (some 9)) =
      .fin { initSt ["x"] (some 9) with requested := [3] } := by
  have h := C4_stop_and_state (fun _ => .httpErr 403) 3 (initSt ["x"] (some 9))
  have h1 := h.2.1 403 rfl
  exact ⟨h1, h.2.2.2.2 _ h1 (fun _ => none) 3 0⟩

theorem pyGet_obj (fields : List (String × JVal)) (k : String) :
    pyGet (.obj fields) k = .ok ((lookupKey fields k).getD .null) := rfl

theorem exBind_ok {α β : Type} (a : α) (f : α → Except PyExc β) :
    (Except.ok a >>= f) = f a := rfl

theorem priceCx_none (fields : List (String × JVal))
    (h : lookupKey fields "priceOperationTypes" = none) :
    priceCx (.obj fields) = .ok (.null, .null) := by
  unfold priceCx
  simp [pySubS, h, catchExc, Bind.bind, Except.bind]

theorem locCx_none (fields : List (String × JVal))
    (h : lookupKey fields "postingLocation" = none) :
    locCx (.obj fields) = .ok (.null, .null, .null) := by
  unfold locCx
  simp [pySubS, h, catchExc, Bind.bind, Except.bind]

theorem urlCx_obj (fields : List (String × JVal)) :
    ∃ u, urlCx (.obj fields) = .ok u ∧
      (lookupKey fields "url" = none → u = .null) := by
  unfold urlCx
  rw [show pyGetD (.obj fields) "url" (.str "") =
    .ok ((lookupKey fields "url").getD (.str "")) from rfl]
  cases hl : lookupKey fields "url" with
  | none => exact ⟨.null, by simp [pyTruthy], fun _ => rfl⟩
  | some v =>
    simp only [Option.getD_some]
    by_cases ht : pyTruthy v = true
    · rw [if_pos ht]
      cases v <;> exact ⟨_, rfl, fun hc => by simp [hl] at hc⟩
    · rw [if_neg ht]
      exact ⟨.null, rfl, fun _ => rfl⟩

/-- C5, as stated, is refuted: a listing whose `publisher` key holds
JSON `null` (a perfectly plausible API value) makes
`listing.get('publisher', {}).get('name')` at line 197 — which is
outside every `try` block — raise an uncaught `AttributeError`, so
flattening the record raises instead of yielding a row with a null
field. -/
theorem C5_counterexample :
    flattenListing (.obj [("publisher", .null)]) "2025-01-01_00-00-00" =
      .error .attributeError := rfl

/-- C5 amended: flattening is total and per-field best-effort for every
record in which the paths read outside a guarding `except` cannot raise
`AttributeError`: the price block reaches a dict (or fails with a
caught exception), the geolocation block likewise, and the `publisher`
value, if present, is a dict.  Under those guards every missing or
malformed path yields a null field for its column only, and no missing
path blocks extraction of the other fields. -/
theorem C5_amended (fields : List (String × JVal)) (ts : String)
    (h1 : (priceCx (.obj fields)).isOk = true)
    (h2 : (locCx (.obj fields)).isOk = true)
    (h3 : pubSafe fields = true) :
    ∃ row, flattenListing (.obj fields) ts = .ok row ∧
      row.retrievedDate = ts ∧
      row.postingId = (lookupKey fields "postingId").getD .null ∧
      row.title = (lookupKey fields "title").getD .null ∧
      row.description = (lookupKey fields "descriptionNormalized").getD .null ∧
      row.expenses = expensesCx (.obj fields) ∧
      (lookupKey fields "priceOperationTypes" = none →
        row.price = .null ∧ row.currency = .null) ∧
      (lookupKey fields "postingLocation" = none →
        row.location = .null ∧ row.latitude = .null ∧ row.longitude = .null) ∧
      (lookupKey fields "url" = none → row.full_url = .null) := by
  rcases hpc : priceCx (.obj fields) with e | pc
  · rw [hpc] at h1
    simp [Except.isOk, Except.toBool] at h1
  rcases hlc : locCx (.obj fields) with e | lc
  · rw [hlc] at h2
    simp [Except.isOk, Except.toBool] at h2
  obtain ⟨u, hu, huNull⟩ := urlCx_obj fields
  have hpub : ∃ pv, pyGet ((lookupKey fields "publisher").getD (.obj [])) "name" = .ok pv := by
    unfold pubSafe at h3
    cases hl : lookupKey fields "publisher" with
    | none => exact ⟨.null, rfl⟩
    | some v =>
      rw [hl] at h3
      cases v <;> first
        | exact ⟨_, rfl⟩
        | simp [isObjJ] at h3
  obtain ⟨pv, hpv⟩ := hpub
  refine ⟨{ postingId := (lookupKey fields "postingId").getD .null,
            price := pc.1, expenses := expensesCx (.obj fields), currency := pc.2,
            bedrooms := (featuresCx (.obj fields)).1,
            suites := (featuresCx (.obj fields)).2.2.2.1,
            bathrooms := (featuresCx (.obj fields)).2.1,
            parking := (featuresCx (.obj fields)).2.2.2.2,
            area_m2 := (featuresCx (.obj fields)).2.2.1,
            location := lc.1, latitude := lc.2.1, longitude := lc.2.2,
            title := (lookupKey fields "title").getD .null,
            description := (lookupKey fields "descriptionNormalized").getD .null,
            publisher := pv, full_url := u, retrievedDate := ts },
          ?_, rfl, rfl, rfl, rfl, rfl, ?_, ?_, ?_⟩
  · unfold flattenListing
    rw [hpc, exBind_ok, hlc, exBind_ok, hu, exBind_ok,
      pyGet_obj, exBind_ok, pyGet_obj, exBind_ok, pyGet_obj, exBind_ok]
    rw [show pyGetD (.obj fields) "publisher" (.obj []) =
      .ok ((lookupKey fields "publisher").getD (.obj [])) from rfl, exBind_ok,
      hpv, exBind_ok]
    rfl
  · intro hn
    have hthis := priceCx_none fields hn
    rw [hpc] at hthis
    injection hthis with hpc2
    simp [hpc2]
  · intro hn
    have hthis := locCx_none fields hn
    rw [hlc] at hthis
    injection hthis with hlc2
    simp [hlc2]
  · intro hn
    exact huNull hn

theorem C5_amended_witness :
    ∃ row, flattenListing (.obj [("title", .str "casa")]) "ts" = .ok row ∧
      row.retrievedDate = "ts" ∧
      row.postingId = (lookupKey [("title", JVal.str "casa")] "postingId").getD .null ∧
      row.title = (lookupKey [("title", JVal.str "casa")] "title").getD .null ∧
      row.description = (lookupKey [("title", JVal.str "casa")] "descriptionNormalized").getD .null ∧
      row.expenses = expensesCx (.obj [("title", .str "casa")]) ∧
      (lookupKey [("title", JVal.str "casa")] "priceOperationTypes" = none →
        row.price = .null ∧ row.currency = .null) ∧
      (lookupKey [("title", JVal.str "casa")] "postingLocation" = none →
        row.location = .null ∧ row.latitude = .null ∧ row.longitude = .null) ∧
      (lookupKey [("title", JVal.str "casa")] "url" = none → row.full_url = .null) :=
  C5_amended [("title", .str "casa")] "ts" rfl rfl rfl

theorem exBind_err {α β : Type} (e : PyExc) (f : α → Except PyExc β) :
    ((Except.error e : Except PyExc α) >>= f) = .error e := rfl

theorem lookupKey_append (l1 l2 : List (String × JVal)) (k : String) :
    lookupKey (l1 ++ l2) k = match lookupKey l1 k with
      | some v => some v
      | none => lookupKey l2 k := by
  induction l1 with
  | nil => rfl
  | cons p rest ih =>
    obtain ⟨k', v⟩ := p
    by_cases h : k' = k <;> simp [lookupKey, h, ih]

theorem flatten_postingId (fields : List (String × JVal)) (ts : String)
    (row : FlatRow) (h : flattenListing (.obj fields) ts = .ok row) :
    row.postingId = (lookupKey fields "postingId").getD .null := by
  unfold flattenListing at h
  rcases hpc : priceCx (.obj fields) with e | pc <;> rw [hpc] at h
  · rw [exBind_err] at h
    exact Except.noConfusion h
  rw [exBind_ok] at h
  rcases hlc : locCx (.obj fields) with e | lc <;> rw [hlc] at h
  · rw [exBind_err] at h
    exact Except.noConfusion h
  rw [exBind_ok] at h
  rcases hu : urlCx (.obj fields) with e | u <;> rw [hu] at h
  · rw [exBind_err] at h
    exact Except.noConfusion h
  rw [exBind_ok, pyGet_obj, exBind_ok, pyGet_obj, exBind_ok, pyGet_obj, exBind_ok] at h
  rw [show pyGetD (.obj fields) "publisher" (.obj []) =
    .ok ((lookupKey fields "publisher").getD (.obj [])) from rfl, exBind_ok] at h
  rcases hpv : pyGet ((lookupKey fields "publisher").getD (.obj [])) "name" with e | pv <;>
    rw [hpv] at h
  · rw [exBind_err] at h
    exact Except.noConfusion h
  rw [exBind_ok] at h
  injection h with hrow
  rw [← hrow]

/-- C9, in its last clause, is refuted: a record with no `postingId` is
indeed kept once per session under the internal key `"None"`, but the
output row's `postingId` column is `listing.get('postingId')`, i.e.
null — the string `"None"` is only the session dict key and is never
written to the file. -/
theorem C9_counterexample :
    sessionKeys ((processItems [.obj [("title", .str "t")]] (initSt [] none) 0).1) = ["None"] ∧
    ∃ row, flattenListing (.obj [("title", .str "t")]) "ts" = .ok row ∧
      row.postingId = JVal.null ∧ row.postingId ≠ JVal.str "None" := by
  refine ⟨rfl, _, rfl, rfl, by simp [lookupKey]⟩

/-- C9 amended: a record whose `postingId` is missing or null is
accepted and recorded in the session accumulator under the key
`"None"` (the string coercion of Python `None` is truthy), at most one
such record is kept per session — but the flat row written for it has a
null `postingId` field, not the string `"None"`. -/
theorem C9_amended (fields : List (String × JVal)) (st : ScrapeSt) (c : Nat)
    (h : lookupKey fields "postingId" = none ∨ lookupKey fields "postingId" = some .null) :
    postedId (.obj fields) = "None" ∧
    ("None" ∉ st.seen_posting_ids →
      (lookupKey st.session "None").isNone = true →
      processItems [(.obj fields)] st c =
        ({ st with session := st.session ++ [("None", .obj fields)] }, c + 1, none)) ∧
    (∀ fields2 : List (String × JVal),
      (lookupKey fields2 "postingId" = none ∨ lookupKey fields2 "postingId" = some .null) →
      "None" ∉ st.seen_posting_ids →
      (lookupKey st.session "None").isNone = true →
      processItems [(.obj fields), (.obj fields2)] st c =
        ({ st with session := st.session ++ [("None", .obj fields)] }, c + 1, none)) ∧
    (∀ ts row, flattenListing (.obj fields) ts = .ok row → row.postingId = JVal.null) := by
  have hpid : pyGet (.obj fields) "postingId" = .ok .null := by
    cases h with
    | inl h0 => rw [pyGet_obj, h0]; rfl
    | inr h0 => rw [pyGet_obj, h0]; rfl
  have hstr : pyStr JVal.null = "None" := rfl
  refine ⟨?_, ?_, ?_, ?_⟩
  · unfold postedId
    rw [hpid]
    rfl
  · intro hseen hsess
    simp only [processItems, hpid]
    rw [if_pos (by simp [pyStr, hseen, hsess])]
    rfl
  · intro fields2 h2 hseen hsess
    have hpid2 : pyGet (.obj fields2) "postingId" = .ok .null := by
      cases h2 with
      | inl h0 => rw [pyGet_obj, h0]; rfl
      | inr h0 => rw [pyGet_obj, h0]; rfl
    simp only [processItems, hpid, hpid2]
    rw [if_pos (by simp [pyStr, hseen, hsess])]
    have hfound : (lookupKey (st.session ++ [("None", JVal.obj fields)]) "None").isNone = false := by
      rw [lookupKey_append]
      rcases hl : lookupKey st.session "None" with _ | v
      · simp [lookupKey]
      · rw [hl] at hsess
        simp at hsess
    rw [if_neg (by simp [pyStr, hfound])]
    rfl
  · intro ts row hrow
    have := flatten_postingId fields ts row hrow
    cases h with
    | inl h0 => rw [this, h0]; rfl
    | inr h0 => rw [this, h0]; rfl

theorem C9_amended_witness :
    postedId (.obj [("x", .num 1)]) = "None" ∧
    processItems [.obj [("x", .num 1)]] (initSt [] none) 0 =
      ({ initSt [] none with session := [("None", .obj [("x", .num 1)])] }, 1, none) ∧
    processItems [.obj [("x", .num 1)], .obj [("y", .num 2)]] (initSt [] none) 0 =
      ({ initSt [] none with session := [("None", .obj [("x", .num 1)])] }, 1, none) ∧
    ∀ row, flattenListing (.obj [("x", .num 1)]) "ts" = .ok row → row.postingId = JVal.null := by
  obtain ⟨h1, h2, h3, h4⟩ := C9_amended [("x", .num 1)] (initSt [] none) 0 (Or.inl rfl)
  exact ⟨h1, h2 (by simp [initSt]) rfl,
    h3 [("y", .num 2)] (Or.inl rfl) (by simp [initSt]) rfl, h4 "ts"⟩

theorem lookupKey_cons_ne (k' : String) (v : JVal) (fields : List (String × JVal))
    (k : String) (h : k' ≠ k) :
    lookupKey ((k', v) :: fields) k = lookupKey fields k := by
  simp [lookupKey, h]

theorem pySubS_obj (fields : List (String × JVal)) (k : String) :
    pySubS (.obj fields) k = match lookupKey fields k with
      | some x => .ok x
      | none => .error .keyError := rfl

theorem pyGetD_obj (fields : List (String × JVal)) (k : String) (d : JVal) :
    pyGetD (.obj fields) k d = .ok ((lookupKey fields k).getD d) := rfl

theorem pySubS_cons_ne (k' : String) (v : JVal) (fields : List (String × JVal))
    (k : String) (h : k' ≠ k) :
    pySubS (.obj ((k', v) :: fields)) k = pySubS (.obj fields) k := by
  rw [pySubS_obj, pySubS_obj, lookupKey_cons_ne k' v fields k h]

theorem pyGetD_cons_ne (k' : String) (v : JVal) (fields : List (String × JVal))
    (k : String) (d : JVal) (h : k' ≠ k) :
    pyGetD (.obj ((k', v) :: fields)) k d = pyGetD (.obj fields) k d := by
  rw [pyGetD_obj, pyGetD_obj, lookupKey_cons_ne k' v fields k h]

theorem pyGet_cons_ne (k' : String) (v : JVal) (fields : List (String × JVal))
    (k : String) (h : k' ≠ k) :
    pyGet (.obj ((k', v) :: fields)) k = pyGet (.obj fields) k :=
  pyGetD_cons_ne k' v fields k .null h

theorem expensesCx_cons (k' : String) (v : JVal) (fields : List (String × JVal))
    (h : k' ≠ "expenses") :
    expensesCx (.obj ((k', v) :: fields)) = expensesCx (.obj fields) := by
  unfold expensesCx
  rw [pySubS_cons_ne k' v fields "expenses" h]

theorem featuresCx_cons (k' : String) (v : JVal) (fields : List (String × JVal))
    (h : k' ≠ "mainFeatures") :
    featuresCx (.obj ((k', v) :: fields)) = featuresCx (.obj fields) := by
  unfold featuresCx
  rw [pyGetD_cons_ne k' v fields "mainFeatures" (.obj []) h]

theorem locCx_cons (k' : String) (v : JVal) (fields : List (String × JVal))
    (h : k' ≠ "postingLocation") :
    locCx (.obj ((k', v) :: fields)) = locCx (.obj fields) := by
  unfold locCx
  rw [pySubS_cons_ne k' v fields "postingLocation" h]

theorem urlCx_cons (k' : String) (v : JVal) (fields : List (String × JVal))
    (h : k' ≠ "url") :
    urlCx (.obj ((k', v) :: fields)) = urlCx (.obj fields) := by
  unfold urlCx
  rw [pyGetD_cons_ne k' v fields "url" (.str "") h]

theorem exPure {α : Type} (a : α) : (pure a : Except PyExc α) = .ok a := rfl

/-- C6: a listing record that lacks `priceOperationTypes` flattens to a
row with `price = None` and `currency = None` (the `KeyError` is caught
by the price block), and every other field is populated exactly as it
is for the same record with a `priceOperationTypes` entry present —
whenever the latter flattens successfully, the former does too, with
only the two price columns nulled. -/
theorem C6_missing_price (fields : List (String × JVal)) (v : JVal) (ts : String)
    (hnone : lookupKey fields "priceOperationTypes" = none)
    (row' : FlatRow)
    (h : flattenListing (.obj (("priceOperationTypes", v) :: fields)) ts = .ok row') :
    flattenListing (.obj fields) ts =
      .ok { row' with price := JVal.null, currency := JVal.null } := by
  unfold flattenListing at h ⊢
  rw [expensesCx_cons _ _ _ (by decide), featuresCx_cons _ _ _ (by decide),
    locCx_cons _ _ _ (by decide), urlCx_cons _ _ _ (by decide),
    pyGet_cons_ne _ _ _ "postingId" (by decide),
    pyGet_cons_ne _ _ _ "title" (by decide),
    pyGet_cons_ne _ _ _ "descriptionNormalized" (by decide),
    pyGetD_cons_ne _ _ _ "publisher" (.obj []) (by decide)] at h
  rcases hpc : priceCx (.obj (("priceOperationTypes", v) :: fields)) with e | pc
  · simp only [hpc, exBind_err] at h
    exact Except.noConfusion h
  simp only [hpc, exBind_ok] at h
  simp only [priceCx_none fields hnone, exBind_ok]
  rcases hlc : locCx (.obj fields) with e | lc
  · simp only [hlc, exBind_err] at h
    exact Except.noConfusion h
  simp only [hlc, exBind_ok] at h ⊢
  rcases hu : urlCx (.obj fields) with e | u
  · simp only [hu, exBind_err] at h
    exact Except.noConfusion h
  simp only [hu, exBind_ok] at h ⊢
  simp only [pyGet_obj, pyGetD_obj, exBind_ok, exPure] at h ⊢
  rcases hpv : pyGet ((lookupKey fields "publisher").getD (.obj [])) "name" with e | pv
  · simp only [hpv, exBind_err] at h
    exact Except.noConfusion h
  simp only [hpv, exBind_ok, exPure] at h ⊢
  injection h with hrow
  rw [← hrow]

theorem C6_missing_price_witness :
    flattenListing (.obj [("title", .str "t")]) "ts" =
      .ok { postingId := .null, price := .null, expenses := .null, currency := .null,
            bedrooms := .null, suites := .null, bathrooms := .null, parking := .null,
            area_m2 := .null, location := .null, latitude := .null, longitude := .null,
            title := .str "t", description := .null, publisher := .null,
            full_url := .null, retrievedDate := "ts" } :=
  C6_missing_price [("title", .str "t")]
    (.arr [.obj [("prices", .arr [.obj [("amount", .num 7), ("currency", .str "BRL")]])]])
    "ts" rfl
    { postingId := .null, price := .num 7, expenses := .null, currency := .str "BRL",
      bedrooms := .null, suites := .null, bathrooms := .null, parking := .null,
      area_m2 := .null, location := .null, latitude := .null, longitude := .null,
      title := .str "t", description := .null, publisher := .null,
      full_url := .null, retrievedDate := "ts" }
    rfl

theorem processItems_ok_of_obj (items : List JVal) (st : ScrapeSt) (c : Nat)
    (hobj : ∀ it ∈ items, isObjJ it = true) :
    (processItems items st c).2.2 = none := by
  induction items generalizing st c with
  | nil => rfl
  | cons it rest ih =>
    have hhd := hobj it (by simp)
    have htl : ∀ x ∈ rest, isObjJ x = true := fun x hx => hobj x (by simp [hx])
    cases it with
    | obj fs =>
      simp only [processItems, pyGet_obj]
      split
      · exact ih _ _ htl
      · exact ih _ _ htl
    | null => simp [isObjJ] at hhd
    | bool b => simp [isObjJ] at hhd
    | num n => simp [isObjJ] at hhd
    | str s => simp [isObjJ] at hhd
    | arr l => simp [isObjJ] at hhd

theorem scrape_page_success (fetch : Int → FetchResult) (page : Int) (st : ScrapeSt)
    (items : List JVal) (hf : fetch page = .ok items) (hne : items ≠ [])
    (hobj : ∀ it ∈ items, isObjJ it = true) :
    ∃ st', scrape_page fetch page st = (true, st') ∧
      st'.lastPageFile = some page ∧
      st'.requested = st.requested ++ [page] ∧
      st'.seen_posting_ids = st.seen_posting_ids ∧
      st'.stateWrites = st.stateWrites ++ [page] := by
  cases items with
  | nil => exact absurd rfl hne
  | cons a l =>
    have hex := processItems_ok_of_obj (a :: l)
      { st with requested := st.requested ++ [page] } 0 hobj
    rcases hp : processItems (a :: l) { st with requested := st.requested ++ [page] } 0
      with ⟨st1, n, exc⟩
    rw [hp] at hex
    simp only at hex
    subst hex
    have hi := processItems_invar (a :: l) { st with requested := st.requested ++ [page] } 0
    rw [hp] at hi
    refine ⟨?st2, ?_, ?_, ?_, ?_, ?_⟩
    case st2 => exact { st1 with new_listings_count := st1.new_listings_count + n, lastPageFile := some page, stateWrites := st1.stateWrites ++ [page] }
    · simp only [scrape_page, hf, hp]
    · rfl
    · simpa using hi.2.2.2.1
    · simpa using hi.1
    · have := hi.2.2.1
      simp only at this
      rw [this]

theorem range_map_succ_shift (p : Int) (k : Nat) :
    (List.range (k + 1)).map (fun i : Nat => p + (i : Int)) =
      p :: (List.range k).map (fun i : Nat => (p + 1) + (i : Int)) := by
  induction k generalizing p with
  | zero => simp [List.range_succ]
  | succ k ih =>
    rw [List.range_succ, List.map_append, ih p, List.range_succ, List.map_append]
    simp only [List.map_cons, List.map_nil, List.cons_append]
    congr 2
    push_cast
    ring_nf

theorem scrapeLoop_pages (fetch : Int → FetchResult) (k : Nat) :
    ∀ (page scraped : Int) (st : ScrapeSt) (fuel : Nat), k + 1 ≤ fuel →
    (∀ i : Nat, i < k → ∃ items, fetch (page + (i : Int)) = .ok items ∧ items ≠ [] ∧
      ∀ it ∈ items, isObjJ it = true) →
    fetch (page + (k : Int)) = .ok [] →
    ∃ st', scrapeLoop fetch (fun _ => none) none fuel page scraped st = .fin st' ∧
      st'.lastPageFile = (if k = 0 then st.lastPageFile else some (page + (k : Int) - 1)) ∧
      st'.requested = st.requested ++ (List.range (k + 1)).map (fun i : Nat => page + (i : Int)) := by
  induction k with
  | zero =>
    intro page scraped st fuel hfuel hp he
    obtain ⟨f, rfl⟩ : ∃ f, fuel = f + 1 := ⟨fuel - 1, by omega⟩
    have he' : fetch page = .ok [] := by simpa using he
    have hsp : scrape_page fetch page st =
        (false, { st with requested := st.requested ++ [page] }) := by
      simp only [scrape_page, he']
    refine ⟨{ st with requested := st.requested ++ [page] }, ?_, by simp,
      by simp [List.range_succ]⟩
    simp only [scrapeLoop]
    rw [show maxPagesHit none scraped = false from rfl]
    simp only [Bool.false_eq_true, if_false]
    rw [hsp]
  | succ k ih =>
    intro page scraped st fuel hfuel hp he
    obtain ⟨f, rfl⟩ : ∃ f, fuel = f + 1 := ⟨fuel - 1, by omega⟩
    obtain ⟨items, hf0, hne, hobj⟩ := hp 0 (by omega)
    have hf0' : fetch page = .ok items := by simpa using hf0
    obtain ⟨st1, hsp, hlast1, hreq1, hseen1, hsw1⟩ :=
      scrape_page_success fetch page st items hf0' hne hobj
    have hp' : ∀ i : Nat, i < k → ∃ its, fetch ((page + 1) + (i : Int)) = .ok its ∧
        its ≠ [] ∧ ∀ it ∈ its, isObjJ it = true := by
      intro i hi
      obtain ⟨its, h1, h2, h3⟩ := hp (i + 1) (by omega)
      refine ⟨its, ?_, h2, h3⟩
      rw [← h1]
      congr 1
      push_cast
      omega
    have he' : fetch ((page + 1) + (k : Int)) = .ok [] := by
      rw [← he]
      congr 1
      push_cast
      omega
    obtain ⟨st', hloop, hlast, hreq⟩ := ih (page + 1) (scraped + 1) st1 f (by omega) hp' he'
    refine ⟨st', ?_, ?_, ?_⟩
    · simp only [scrapeLoop]
      rw [show maxPagesHit none scraped = false from rfl]
      simp only [Bool.false_eq_true, if_false]
      rw [hsp]
      exact hloop
    · rw [hlast]
      by_cases hk : k = 0
      · subst hk
        rw [if_pos rfl, if_neg (by omega), hlast1]
        congr 1
        push_cast
        omega
      · rw [if_neg hk, if_neg (by omega)]
        congr 1
        push_cast
        omega
    · rw [hreq, hreq1, range_map_succ_shift page (k + 1)]
      simp

/-- C2: with no page cap and no start override needed (any initial page
`p0` the driver computed), a mocked API that returns `N ≥ 1` non-empty
pages of records from the first requested page on and then an empty
page makes the driver persist `last_page` equal to the N-th page
fetched (`p0 + N - 1`), stop without raising an error (the loop ends by
`break` and `scrape` returns normally), and request no page beyond the
empty one: exactly pages `p0 .. p0 + N`. -/
theorem C2_pages_then_stop (N : Nat) (hN : 1 ≤ N) (fetch : Int → FetchResult)
    (startPage : Option Int) (stateVal : JVal) (p0 : Int)
    (hinit : initialPage startPage stateVal = .ok p0)
    (st : ScrapeSt) (hreq : st.requested = []) (fuel : Nat) (hfuel : N + 1 ≤ fuel)
    (hp : ∀ i : Nat, i < N → ∃ items, fetch (p0 + (i : Int)) = .ok items ∧ items ≠ [] ∧
      ∀ it ∈ items, isObjJ it = true)
    (he : fetch (p0 + (N : Int)) = .ok []) :
    ∃ st', scrapeLoop fetch (fun _ => none) none fuel p0 0 st = .fin st' ∧
      scrapeRun fetch (fun _ => none) startPage none stateVal fuel st =
        .ok (st'.session, st') ∧
      st'.lastPageFile = some (p0 + (N : Int) - 1) ∧
      st'.requested = (List.range (N + 1)).map (fun i : Nat => p0 + (i : Int)) := by
  obtain ⟨st', hloop, hlast, hreqq⟩ := scrapeLoop_pages fetch N p0 0 st fuel hfuel hp he
  refine ⟨st', hloop, ?_, ?_, ?_⟩
  · rw [scrapeRun_eq fetch (fun _ => none) startPage none stateVal fuel st p0 hinit, hloop]
    rfl
  · rw [hlast, if_neg (by omega)]
  · rw [hreqq, hreq]
    simp

theorem C2_pages_then_stop_witness :
    ∃ st', scrapeLoop (fun p => if p ≤ 1 then .ok [.obj []] else .ok [])
        (fun _ => none) none 2 1 0 (initSt [] none) = .fin st' ∧
      scrapeRun (fun p => if p ≤ 1 then .ok [.obj []] else .ok [])
        (fun _ => none) (some 1) none .null 2 (initSt [] none) = .ok (st'.session, st') ∧
      st'.lastPageFile = some (1 + ((1 : Nat) : Int) - 1) ∧
      st'.requested = (List.range 2).map (fun i : Nat => 1 + (i : Int)) := by
  refine C2_pages_then_stop 1 (by omega) _ (some 1) .null 1 rfl (initSt [] none) rfl
    2 (by omega) ?_ ?_
  · intro i hi
    have h0 : i = 0 := by omega
    subst h0
    refine ⟨[.obj []], ?_, by simp, by simp [isObjJ]⟩
    norm_num
  · norm_num

theorem processItems_mem (items : List JVal) (hobj : ∀ it ∈ items, isObjJ it = true) :
    ∀ (st : ScrapeSt) (c : Nat) (id : String),
      id ∈ sessionKeys (processItems items st c).1 ↔
        id ∈ sessionKeys st ∨
          (id ∈ items.map postedId ∧ id ∉ st.seen_posting_ids ∧ id ≠ "") := by
  induction items with
  | nil =>
    intro st c id
    simp [processItems]
  | cons it rest ih =>
    intro st c id
    have hhd := hobj it (by simp)
    have htl : ∀ x ∈ rest, isObjJ x = true := fun x hx => hobj x (by simp [hx])
    cases it with
    | null => simp [isObjJ] at hhd
    | bool b => simp [isObjJ] at hhd
    | num n => simp [isObjJ] at hhd
    | str s => simp [isObjJ] at hhd
    | arr l => simp [isObjJ] at hhd
    | obj fs =>
      have hpost : postedId (.obj fs) = pyStr ((lookupKey fs "postingId").getD .null) := by
        unfold postedId
        rw [pyGet_obj]
      simp only [processItems, pyGet_obj, List.map_cons, hpost]
      set pid := pyStr ((lookupKey fs "postingId").getD .null) with hpiddef
      by_cases hcond : (pid != "" && !st.seen_posting_ids.contains pid &&
          (lookupKey st.session pid).isNone) = true
      · rw [if_pos hcond]
        rw [ih htl _ (c + 1) id]
        obtain ⟨⟨h1, h2⟩, h3⟩ : (¬pid = "" ∧ pid ∉ st.seen_posting_ids) ∧
            lookupKey st.session pid = none := by
          simpa [Bool.and_eq_true] using hcond
        simp only [sessionKeys, List.map_append, List.map_cons, List.map_nil,
          List.mem_append, List.mem_singleton, List.mem_cons]
        by_cases hid : id = pid
        · subst hid
          tauto
        · tauto
      · rw [if_neg hcond]
        rw [ih htl st c id]
        constructor
        · rintro (hx | ⟨hm, hp⟩)
          · exact Or.inl hx
          · exact Or.inr ⟨List.mem_cons_of_mem _ hm, hp⟩
        · rintro (hx | ⟨hm, hp⟩)
          · exact Or.inl hx
          · rcases List.mem_cons.mp hm with hid | hm2
            · subst hid
              left
              have hsome : (lookupKey st.session pid).isSome = true := by
                by_contra hns
                have hnone0 : lookupKey st.session pid = none :=
                  Option.not_isSome_iff_eq_none.mp hns
                apply hcond
                simp [hp.1, hp.2, hnone0]
              exact (lookupKey_isSome_iff st.session pid).mp hsome
            · exact Or.inr ⟨hm2, hp⟩

theorem processItems_nodup (items : List JVal) :
    ∀ (st : ScrapeSt) (c : Nat), (sessionKeys st).Nodup →
      (sessionKeys (processItems items st c).1).Nodup := by
  induction items with
  | nil =>
    intro st c h
    simpa [processItems] using h
  | cons it rest ih =>
    intro st c h
    cases hg : pyGet it "postingId" with
    | error e => simpa [processItems, hg] using h
    | ok pv =>
      simp only [processItems, hg]
      by_cases hcond : (pyStr pv != "" && !st.seen_posting_ids.contains (pyStr pv) &&
          (lookupKey st.session (pyStr pv)).isNone) = true
      · rw [if_pos hcond]
        apply ih
        obtain ⟨⟨hA, hB⟩, hC⟩ : (¬pyStr pv = "" ∧ pyStr pv ∉ st.seen_posting_ids) ∧
            lookupKey st.session (pyStr pv) = none := by
          simpa [Bool.and_eq_true] using hcond
        have hnotmem : pyStr pv ∉ sessionKeys st := by
          intro hmem
          have hs := (lookupKey_isSome_iff st.session (pyStr pv)).mpr hmem
          rw [hC] at hs
          simp at hs
        have hkeys : sessionKeys { st with session := st.session ++ [(pyStr pv, it)] } =
            sessionKeys st ++ [pyStr pv] := by
          simp [sessionKeys]
        rw [hkeys]
        refine List.Nodup.append h (List.nodup_singleton _) ?_
        intro a ha hb
        rw [List.mem_singleton] at hb
        subst hb
        exact hnotmem ha
      · rw [if_neg hcond]
        exact ih st c h

theorem mapFst_dictInsert_replace (l : List (String × JVal)) (k : String) (v : JVal) :
    (l.map (fun p => if p.1 = k then (k, v) else p)).map Prod.fst = l.map Prod.fst := by
  induction l with
  | nil => rfl
  | cons p rest ih =>
    by_cases h : p.1 = k <;> simp [h, ih]

theorem dictInsert_keys (l : List (String × JVal)) (k : String) (v : JVal) :
    (dictInsert l k v).map Prod.fst =
      if (lookupKey l k).isSome then l.map Prod.fst else l.map Prod.fst ++ [k] := by
  unfold dictInsert
  split
  · exact mapFst_dictInsert_replace l k v
  · simp

theorem qaUniqueAux_spec (listings : List JVal)
    (hok : ∀ it ∈ listings, (pySubS it "id").isOk = true) :
    ∀ acc : List (String × JVal), (acc.map Prod.fst).Nodup →
      ∃ u, qaUniqueAux acc listings = .ok u ∧ (u.map Prod.fst).Nodup ∧
        ∀ id, id ∈ u.map Prod.fst ↔ id ∈ acc.map Prod.fst ∨ id ∈ listings.map qaIdOf := by
  induction listings with
  | nil =>
    intro acc hnd
    exact ⟨acc, rfl, hnd, by simp⟩
  | cons it rest ih =>
    intro acc hnd
    have hhd := hok it (by simp)
    have htl : ∀ x ∈ rest, (pySubS x "id").isOk = true := fun x hx => hok x (by simp [hx])
    rcases hid : pySubS it "id" with e | idv
    · rw [hid] at hhd
      simp [Except.isOk, Except.toBool] at hhd
    have hqa : qaIdOf it = pyStr idv := by
      unfold qaIdOf
      rw [hid]
    have hstep : qaUniqueAux acc (it :: rest) =
        qaUniqueAux (dictInsert acc (pyStr idv) it) rest := by
      simp only [qaUniqueAux, hid, exBind_ok]
    have hnd' : ((dictInsert acc (pyStr idv) it).map Prod.fst).Nodup := by
      rw [dictInsert_keys]
      split
      · exact hnd
      · next hno =>
        refine List.Nodup.append hnd (List.nodup_singleton _) ?_
        intro a ha hb
        rw [List.mem_singleton] at hb
        subst hb
        exact hno ((lookupKey_isSome_iff acc (pyStr idv)).mpr ha)
    obtain ⟨u, hu, hund, hmem⟩ := ih htl (dictInsert acc (pyStr idv) it) hnd'
    refine ⟨u, by rw [hstep]; exact hu, hund, ?_⟩
    intro id
    rw [hmem id, dictInsert_keys]
    simp only [List.map_cons, List.mem_cons, hqa]
    by_cases hs : (lookupKey acc (pyStr idv)).isSome = true
    · rw [if_pos hs]
      have hin : pyStr idv ∈ acc.map Prod.fst := (lookupKey_isSome_iff acc (pyStr idv)).mp hs
      constructor
      · rintro (h | h)
        · exact Or.inl h
        · exact Or.inr (Or.inr h)
      · rintro (h | h | h)
        · exact Or.inl h
        · subst h
          exact Or.inl hin
        · exact Or.inr h
    · rw [if_neg hs]
      simp only [List.mem_append, List.mem_singleton]
      tauto

theorem mapFst_filterContains (u : List (String × JVal)) (existing : List String) :
    (u.filter (fun p => !existing.contains p.1)).map Prod.fst =
      (u.map Prod.fst).filter (fun id => !existing.contains id) := by
  induction u with
  | nil => rfl
  | cons p rest ih =>
    rw [List.filter_cons, List.map_cons, List.filter_cons]
    by_cases h : (!existing.contains p.1) = true
    · rw [if_pos h, if_pos h, List.map_cons, ih]
    · rw [if_neg h, if_neg h]
      exact ih

/-- C1, as stated, is refuted for site A by a record whose `postingId`
is the empty string: its coerced id `""` is falsy, so line 108's
`if posting_id and ...` drops it — with prior ID set S = ∅ and fetch ID
set F containing only `""`, the new output's ID set is ∅, not
F \ S = the singleton of the empty string. -/
theorem C1_counterexample :
    postedId (.obj [("postingId", .str "")]) = "" ∧
    "" ∈ [JVal.obj [("postingId", .str "")]].map postedId ∧
    "" ∉ ([] : List String) ∧
    sessionKeys ((processItems [.obj [("postingId", .str "")]] (initSt [] none) 0).1) = [] := by
  refine ⟨rfl, ?_, by simp, rfl⟩
  rw [show [JVal.obj [("postingId", .str "")]].map postedId = [""] from rfl]
  simp

/-- C1 amended: for a fresh per-city run, the set of ids recorded for
the new output is exactly F \ S with no duplicates — except that on
site A a record whose coerced id is the empty string (the only falsy
id string) is dropped by line 108's truthiness test.  Site A: the
session accumulator keys are exactly the fetched ids not in the seen
set and non-empty, with no duplicates.  Site B: the rows appended for a
city are keyed exactly by the fetched ids not in the existing file,
with no duplicates. -/
theorem C1_amended :
    (∀ (records : List JVal) (seen : List String) (lastPage : Option Int),
      (∀ it ∈ records, isObjJ it = true) →
      (sessionKeys (processItems records (initSt seen lastPage) 0).1).Nodup ∧
      (∀ id, id ∈ sessionKeys (processItems records (initSt seen lastPage) 0).1 ↔
        (id ∈ records.map postedId ∧ id ∉ seen ∧ id ≠ ""))) ∧
    (∀ (listings : List JVal) (existing : List String) (resp : QResp),
      (∀ it ∈ listings, (pySubS it "id").isOk = true) →
      fetch_quintoandar_data resp = .ok (some listings) →
      ∃ final, qaProcessCity existing resp = .ok final ∧
        (final.map Prod.fst).Nodup ∧
        (∀ id, id ∈ final.map Prod.fst ↔
          (id ∈ listings.map qaIdOf ∧ id ∉ existing))) := by
  constructor
  · intro records seen lastPage hobj
    constructor
    · apply processItems_nodup
      simp [sessionKeys, initSt]
    · intro id
      rw [processItems_mem records hobj (initSt seen lastPage) 0 id]
      simp [sessionKeys, initSt]
  · intro listings existing resp hok hfetch
    by_cases hemp : listings.isEmpty = true
    · refine ⟨[], ?_, by simp, ?_⟩
      · simp only [qaProcessCity, hfetch]
        rw [if_pos hemp]
      · intro id
        rw [List.isEmpty_iff.mp hemp]
        simp
    · obtain ⟨u, hu, hund, hmem⟩ := qaUniqueAux_spec listings hok [] (by simp)
      refine ⟨u.filter (fun p => !existing.contains p.1), ?_, ?_, ?_⟩
      · simp only [qaProcessCity, hfetch]
        rw [if_neg hemp, show qaUnique listings = qaUniqueAux [] listings from rfl]
        simp only [hu]
      · rw [mapFst_filterContains]
        exact List.Nodup.filter _ hund
      · intro id
        rw [mapFst_filterContains, List.mem_filter, hmem id]
        simp

theorem C1_amended_witness :
    (sessionKeys (processItems [.obj [("postingId", .str "A")], .obj [("postingId", .str "B")],
        .obj [("postingId", .str "A")]] (initSt ["B"] none) 0).1).Nodup ∧
    ("A" ∈ sessionKeys (processItems [.obj [("postingId", .str "A")], .obj [("postingId", .str "B")],
        .obj [("postingId", .str "A")]] (initSt ["B"] none) 0).1 ↔
      ("A" ∈ [JVal.obj [("postingId", .str "A")], JVal.obj [("postingId", .str "B")],
        JVal.obj [("postingId", .str "A")]].map postedId ∧ "A" ∉ ["B"] ∧ "A" ≠ "")) ∧
    ("B" ∈ sessionKeys (processItems [.obj [("postingId", .str "A")], .obj [("postingId", .str "B")],
        .obj [("postingId", .str "A")]] (initSt ["B"] none) 0).1 ↔
      ("B" ∈ [JVal.obj [("postingId", .str "A")], JVal.obj [("postingId", .str "B")],
        JVal.obj [("postingId", .str "A")]].map postedId ∧ "B" ∉ ["B"] ∧ "B" ≠ "")) ∧
    ∃ final, qaProcessCity ["a"] (.okJson (.obj [("hits", .obj [("hits", .arr
        [.obj [("_source", .obj [("id", .str "a")])],
         .obj [("_source", .obj [("id", .str "b")])]])])])) = .ok final ∧
      (final.map Prod.fst).Nodup ∧
      (∀ id, id ∈ final.map Prod.fst ↔
        (id ∈ [JVal.obj [("id", .str "a")], JVal.obj [("id", .str "b")]].map qaIdOf ∧
          id ∉ ["a"])) := by
  have h1 := C1_amended.1 [.obj [("postingId", .str "A")], .obj [("postingId", .str "B")],
    .obj [("postingId", .str "A")]] ["B"] none (by decide)
  have h2 := C1_amended.2 [JVal.obj [("id", .str "a")], JVal.obj [("id", .str "b")]] ["a"]
    (.okJson (.obj [("hits", .obj [("hits", .arr
        [.obj [("_source", .obj [("id", .str "a")])],
         .obj [("_source", .obj [("id", .str "b")])]])])])) (by decide) rfl
  exact ⟨h1.1, h1.2 "A", h1.2 "B", h2⟩

theorem qaProcessCity_ok_of_safe (existing : List String) (resp : QResp)
    (h : qaRespSafe resp = true) : ∃ x, qaProcessCity existing resp = .ok x := by
  unfold qaRespSafe at h
  cases hf : fetch_quintoandar_data resp with
  | error e =>
    rw [hf] at h
    simp at h
  | ok o =>
    rw [hf] at h
    cases o with
    | none => exact ⟨[], by simp only [qaProcessCity, hf]⟩
    | some listings =>
      simp only [List.all_eq_true] at h
      by_cases hemp : listings.isEmpty = true
      · refine ⟨[], ?_⟩
        simp only [qaProcessCity, hf]
        rw [if_pos hemp]
      · obtain ⟨u, hu, _, _⟩ := qaUniqueAux_spec listings h [] (by simp)
        refine ⟨u.filter (fun p => !existing.contains p.1), ?_⟩
        simp only [qaProcessCity, hf]
        rw [if_neg hemp, show qaUnique listings = qaUniqueAux [] listings from rfl]
        simp only [hu]

theorem qaMainGo_safe (existingO : String → List String) (respO : String → QResp) :
    ∀ l, (∀ c ∈ l, qaRespSafe (respO c) = true) →
      qaMainGo existingO respO l = .exit 0 := by
  intro l
  induction l with
  | nil => intro _; rfl
  | cons c rest ih =>
    intro hsafe
    obtain ⟨x, hx⟩ := qaProcessCity_ok_of_safe (existingO c) (respO c) (hsafe c (by simp))
    simp only [qaMainGo, hx]
    exact ih (fun d hd => hsafe d (by simp [hd]))

/-- C7, as stated, is refuted: with valid CLI arguments, a fetched
listing record lacking the `id` key makes line 131's `item['id']`
raise an uncaught `KeyError`, crashing the site-B process with a
non-zero exit even though CLI validation passed. -/
theorem C7_counterexample :
    qaValidationFails ["prog", "1", "c"] = false ∧
    qaMainRun ["prog", "1", "c"] (fun _ => [])
      (fun _ => .okJson (.obj [("hits", .obj [("hits", .arr [.obj []])])])) =
      .crash .keyError ∧
    (ProcExit.crash .keyError).nonzero = true := by
  exact ⟨rfl, rfl, rfl⟩

/-- C7 amended: CLI validation failures exit with code 1 (site B) or 2
(site A, `argparse`); the enumerated scraping failures — request/HTTP
error, JSON decode failure, unreadable existing file (modelled by the
loaded-ids oracle), unknown city (site A skips it) — all degrade to
warnings with exit 0; but a fetched site-B record without an `id` key
crashes the process with a non-zero exit. -/
theorem C7_amended :
    (∀ (argv : List String) (existingO : String → List String) (respO : String → QResp),
      qaValidationFails argv = true → qaMainRun argv existingO respO = .exit 1) ∧
    (∀ (argv : List String) (existingO : String → List String) (respO : String → QResp),
      qaValidationFails argv = false →
      (∀ c ∈ argv.drop 2, qaRespSafe (respO c) = true) →
      qaMainRun argv existingO respO = .exit 0) ∧
    iwMainExit none = .exit 2 ∧
    (∀ cities : List String, cities ≠ [] → iwMainExit (some cities) = .exit 0) := by
  refine ⟨?_, ?_, rfl, ?_⟩
  · intro argv existingO respO h
    simp [qaMainRun, h]
  · intro argv existingO respO h hsafe
    simp only [qaMainRun, h]
    simp only [Bool.false_eq_true, if_false]
    exact qaMainGo_safe existingO respO (argv.drop 2) hsafe
  · intro cities hne
    cases cities with
    | nil => exact absurd rfl hne
    | cons c rest => rfl

theorem C7_amended_witness :
    qaMainRun ["prog", "abc", "x"] (fun _ => []) (fun _ => .reqErr) = .exit 1 ∧
    qaMainRun ["prog", "1", "c1", "c2"] (fun _ => ["old1"])
      (fun c => if c = "c1" then .reqErr else .decodeErr) = .exit 0 ∧
    iwMainExit none = .exit 2 ∧
    iwMainExit (some ["itanhaem-sp", "unknown-city"]) = .exit 0 := by
  obtain ⟨h1, h2, h3, h4⟩ := C7_amended
  refine ⟨h1 _ _ _ rfl, h2 _ _ _ rfl ?_, h3, h4 _ (by simp)⟩
  intro c hc
  fin_cases hc <;> rfl

end Scrapping
